import Mathlib

/-!
# Student dashboard: the filter / render / status pipeline of `student-dashboard/js/app.js`

A shallow embedding of the script's module state and of the functions
`handleCredentialResponse`, `applyFilters`, `showTodayOnly`, `showThisWeek`, `render`,
`renderAssignmentCard`, `updateStatus`, `updateProgress`, `getTypeClass`, `formatDueDate`
and `escapeHtml`, followed by theorems about them.

Modelling conventions.

* Record fields hold primitive JavaScript values (`JSVal`); a missing property reads as
  `undefined`.  Numbers are the integer-valued ones (the data model's "signed integer"), so a
  number is an `Int` and there is neither `NaN` nor a negative zero among field values; the
  integers that stand for a number are the safe ones (`isSafeInteger`, magnitude below `2^53`),
  each of which is a double and prints as its decimal digits.
* A value coerced by `>=` or `<=` becomes a double (`JSNumber`); the value of a numeric string
  is rounded to the nearest double exactly.
* Assignment records are objects: the arrays `assignments` and `filtered` hold references
  into an object store (`heap`), so a field patch through one array is seen through the other,
  as in the script.
* The quotient `completed / total` and its product with `100` in `updateProgress` are IEEE-754
  double operations; they are modelled exactly, as the rational value of the rounded result.
* The page elements `#assignmentsList`, `#login-container` and `#app` exist; `#progressBar` is
  optional, as the script guards it.
-/

namespace Dashboard

/-! ## JavaScript values -/

/-- A Number as ToNumber yields it: `NaN`, an infinity, or the finite double `m * 2 ^ e`
(the two zeros are not told apart). -/
inductive JSNumber where
  | nan
  | infinity (negative : Bool)
  | finite (m : Int) (e : Int)
  deriving DecidableEq, Repr

namespace JSNumber

/-- The comparison `x >= k` of a Number with an integer; false for `NaN`. -/
def geInt : JSNumber → Int → Bool
  | nan, _ => false
  | infinity negative, _ => !negative
  | finite m e, k => if 0 ≤ e then decide (k ≤ m * 2 ^ e.toNat) else decide (k * 2 ^ (-e).toNat ≤ m)

/-- The comparison `x <= k` of a Number with an integer; false for `NaN`. -/
def leInt : JSNumber → Int → Bool
  | nan, _ => false
  | infinity negative, _ => negative
  | finite m e, k => if 0 ≤ e then decide (m * 2 ^ e.toNat ≤ k) else decide (m ≤ k * 2 ^ (-e).toNat)

/-- The number of binary digits of `n`, found in at most `fuel` halvings. -/
def bitLength : Nat → Nat → Nat
  | 0, _ => 0
  | fuel + 1, n => if n = 0 then 0 else bitLength fuel (n / 2) + 1

/-- The exponent `⌊log₂ (a / b)⌋` of a positive quotient. -/
def binade (a b : Nat) : Int :=
  let d : Int := (bitLength a a : Int) - (bitLength b b : Int)
  let atLeast : Bool := if 0 ≤ d then decide (b * 2 ^ d.toNat ≤ a) else decide (b ≤ a * 2 ^ (-d).toNat)
  if atLeast then d else d - 1

/-- The double nearest to the positive quotient `a / b`, with the sign given: the quotient is
rounded to a multiple of `2 ^ (max ⌊log₂ (a / b)⌋ (-1022) - 52)`, ties to the even multiple,
and a result of `2 ^ 1024` or more is an infinity. -/
def roundQuotient (negative : Bool) (a b : Nat) : JSNumber :=
  let s : Int := max (binade a b) (-1022) - 52
  let n := if s ≤ 0 then a * 2 ^ (-s).toNat else a
  let d := if s ≤ 0 then b else b * 2 ^ s.toNat
  let q := n / d
  let r := n % d
  let m := if 2 * r < d then q else if d < 2 * r then q + 1 else if q % 2 = 0 then q else q + 1
  if 0 ≤ s ∧ 2 ^ 1024 ≤ m * 2 ^ s.toNat then infinity negative
  else finite (if negative then -(m : Int) else (m : Int)) s

end JSNumber

/-- Primitive JavaScript values of a decoded JSON field (`undefined` for a missing property). -/
inductive JSVal where
  | undefined
  | null
  | bool (b : Bool)
  | num (n : Int)
  | str (s : String)
  deriving DecidableEq, Repr

namespace JSVal

/-- The test `typeof v === 'number'`. -/
def isNumber : JSVal → Bool
  | num _ => true
  | _ => false

/-- ToBoolean: the values that count as true in `v ? a : b`, `v || b` and `if (v)`. -/
def truthy : JSVal → Bool
  | undefined => false
  | null => false
  | bool b => b
  | num n => n != 0
  | str s => s != ""

/-- The test `Number.isSafeInteger`: the integers of magnitude at most `2^53 - 1`, all of which
are doubles. -/
def isSafeInteger (n : Int) : Prop := |n| ≤ 9007199254740991

instance (n : Int) : Decidable (isSafeInteger n) := by
  unfold isSafeInteger; infer_instance

/-- Number::toString of a safe integer: its decimal digits, with a leading `-` when negative.
(Beyond the safe integers JavaScript prints the shortest digits that identify the double, and
an exponent from `10^21` on; statements about printed numbers assume `isSafeInteger`.) -/
def numberToString (n : Int) : String := toString n

/-- ToString, as applied by template literals and string concatenation. -/
def toStr : JSVal → String
  | undefined => "undefined"
  | null => "null"
  | bool true => "true"
  | bool false => "false"
  | num n => numberToString n
  | str s => s

/-- The operator `a || b`. -/
def orElse (a b : JSVal) : JSVal := if a.truthy then a else b

/-- White space stripped by StringToNumber (StrWhiteSpaceChar). -/
def isStrWhiteSpace (c : Char) : Bool :=
  let n := c.toNat
  n = 0x9 || n = 0xA || n = 0xB || n = 0xC || n = 0xD || n = 0x20 || n = 0xA0 || n = 0x1680
    || (0x2000 ≤ n && n ≤ 0x200A) || n = 0x2028 || n = 0x2029 || n = 0x202F || n = 0x205F
    || n = 0x3000 || n = 0xFEFF

/-- The value of a digit in the given base, `none` for any other character. -/
def digitValue (base : Nat) (c : Char) : Option Nat :=
  let n := c.toNat
  let v := if 48 ≤ n ∧ n ≤ 57 then n - 48
    else if 97 ≤ n ∧ n ≤ 102 then n - 87
    else if 65 ≤ n ∧ n ≤ 70 then n - 55
    else base
  if v < base then some v else none

/-- Value of a run of digits in the given base after the value `acc` of the digits before it,
`none` when another character occurs. -/
def digitsValue (base : Nat) : List Char → Nat → Option Nat
  | [], acc => some acc
  | c :: cs, acc =>
    match digitValue base c with
    | some v => digitsValue base cs (acc * base + v)
    | none => none

/-- Value of a non-empty run of digits in the given base. -/
def numeral (base : Nat) (cs : List Char) : Option Nat :=
  if cs.isEmpty then none else digitsValue base cs 0

/-- The SignedInteger of an exponent part. -/
def signedInteger : List Char → Option Int
  | '+' :: ds => (numeral 10 ds).map Int.ofNat
  | '-' :: ds => (numeral 10 ds).map (fun n => -Int.ofNat n)
  | ds => (numeral 10 ds).map Int.ofNat

/-- The double of the decimal `mantissa * 10 ^ exponent` with the sign given.  A value of
`10 ^ 310` or more is an infinity and one below `10 ^ (-330)` a zero, whatever its digits. -/
def decimalValue (negative : Bool) (mantissa : Nat) (exponent : Int) : JSNumber :=
  if mantissa = 0 then .finite 0 0
  else
    let magnitude : Int := ((toString mantissa).length : Int) + exponent
    if 311 < magnitude then .infinity negative
    else if magnitude < -330 then .finite 0 0
    else if 0 ≤ exponent then JSNumber.roundQuotient negative (mantissa * 10 ^ exponent.toNat) 1
    else JSNumber.roundQuotient negative mantissa (10 ^ (-exponent).toNat)

/-- StrUnsignedDecimalLiteral: `Infinity`, or digits with an optional fraction and an optional
exponent part, at least one digit before the exponent. -/
def unsignedDecimal (negative : Bool) (cs : List Char) : JSNumber :=
  if cs = "Infinity".toList then .infinity negative
  else
    let body := cs.takeWhile (fun c => c != 'e' && c != 'E')
    let rest := cs.dropWhile (fun c => c != 'e' && c != 'E')
    let whole := body.takeWhile (fun c => c != '.')
    let point := body.dropWhile (fun c => c != '.')
    let fraction := point.drop 1
    let exponent : Option Int := if rest.isEmpty then some 0 else signedInteger (rest.drop 1)
    let digits := whole ++ fraction
    if digits.isEmpty then .nan
    else
      match digitsValue 10 digits 0, exponent with
      | some mantissa, some e => decimalValue negative mantissa (e - fraction.length)
      | _, _ => .nan

/-- StringToNumber: surrounding white space is dropped, the empty string is `0`, a binary, octal
or hexadecimal integer literal or a signed decimal literal is its value rounded to a double,
and anything else is `NaN`. -/
def stringToNumber (s : String) : JSNumber :=
  let cs := ((s.toList.dropWhile isStrWhiteSpace).reverse.dropWhile isStrWhiteSpace).reverse
  match cs with
  | [] => .finite 0 0
  | '0' :: 'x' :: ds | '0' :: 'X' :: ds =>
    match numeral 16 ds with
    | some n => if n = 0 then .finite 0 0 else JSNumber.roundQuotient false n 1
    | none => .nan
  | '0' :: 'o' :: ds | '0' :: 'O' :: ds =>
    match numeral 8 ds with
    | some n => if n = 0 then .finite 0 0 else JSNumber.roundQuotient false n 1
    | none => .nan
  | '0' :: 'b' :: ds | '0' :: 'B' :: ds =>
    match numeral 2 ds with
    | some n => if n = 0 then .finite 0 0 else JSNumber.roundQuotient false n 1
    | none => .nan
  | '+' :: ds => unsignedDecimal false ds
  | '-' :: ds => unsignedDecimal true ds
  | ds => unsignedDecimal false ds

/-- ToNumber. -/
def toNumber : JSVal → JSNumber
  | undefined => .nan
  | null => .finite 0 0
  | bool true => .finite 1 0
  | bool false => .finite 0 0
  | num n => .finite n 0
  | str s => stringToNumber s

/-- The comparison `v >= k` against a number `k`: the left side goes through ToNumber and a
`NaN` makes the comparison false. -/
def geNum (v : JSVal) (k : Int) : Bool := v.toNumber.geInt k

/-- The comparison `v <= k` against a number `k`. -/
def leNum (v : JSVal) (k : Int) : Bool := v.toNumber.leInt k

/-- Strict equality `a === b` (no coercion). -/
def strictEq (a b : JSVal) : Bool := decide (a = b)

end JSVal

open JSVal

/-! ## Data model and module state -/

/-- An assignment record as delivered by the `getAssignments` action. -/
structure Assignment where
  uid : JSVal := .undefined
  title : JSVal := .undefined
  description : JSVal := .undefined
  category : JSVal := .undefined
  type : JSVal := .undefined
  status : JSVal := .undefined
  priority : JSVal := .undefined
  daysUntilDue : JSVal := .undefined
  dueDate : JSVal := .undefined
  deriving DecidableEq, Repr

/-- A checkbox of the rendered list: its `onchange` attribute and its checked state. -/
structure Checkbox where
  onchange : String
  checked : Bool
  deriving DecidableEq, Repr

/-- The `#progressBar` element: `style.width` and `textContent`. -/
structure ProgressBar where
  width : String
  textContent : String
  deriving DecidableEq, Repr

/-- The module variables `currentUser`, `assignments`, `filtered`, the object store their
entries point into, and the parts of the page and of `localStorage` the script touches. -/
structure State where
  currentUser : JSVal := .null
  heap : List Assignment := []
  assignments : List Nat := []
  filtered : List Nat := []
  subjectFilter : String := "all"
  typeFilter : String := "all"
  statusFilter : String := "all"
  listHTML : String := ""
  checkboxes : List Checkbox := []
  progressBar : Option ProgressBar := none
  feedback : List String := []
  storedEmail : Option String := none
  loginDisplay : String := ""
  appDisplay : String := ""
  alerts : List String := []
  loadsStarted : Nat := 0
  deriving DecidableEq, Repr

/-- The object a reference points to (the empty object for a reference outside the store, which
a state reached by the script never holds). -/
def deref (heap : List Assignment) (r : Nat) : Assignment := heap.getD r {}

/-- The records an array of references holds, in array order. -/
def records (heap : List Assignment) (refs : List Nat) : List Assignment := refs.map (deref heap)

/-! ## Progress indicator (`updateProgress`) -/

/-- Round to the nearest integer, ties to the even one (the IEEE-754 default rounding of a
significand). -/
def roundNearestEven (t : ℚ) : ℤ :=
  let f := ⌊t⌋
  let r := t - f
  if r < 1 / 2 then f else if 1 / 2 < r then f + 1 else if f % 2 = 0 then f else f + 1

/-- The double nearest to a non-negative real `x` in the normal range: `x` is rounded to 53
significant bits, i.e. to a multiple of `2 ^ (⌊log₂ x⌋ - 52)`. -/
def toDouble (x : ℚ) : ℚ :=
  if x ≤ 0 then 0 else
    let u : ℚ := (2 : ℚ) ^ (Int.log 2 x - 52)
    (roundNearestEven (x / u) : ℚ) * u

/-- The function `Math.round`: the nearest integer, ties towards `+∞`. -/
def mathRound (z : ℚ) : ℤ := ⌊z + 1 / 2⌋

/-- The expression `total > 0 ? Math.round((completed / total) * 100) : 0`. -/
def percentage (completed total : Nat) : ℤ :=
  if 0 < total then mathRound (toDouble (toDouble ((completed : ℚ) / (total : ℚ)) * 100)) else 0

/-- The number of entries of `assignments` whose status is `'Completed'`. -/
def completedCount (s : State) : Nat :=
  (s.assignments.filter (fun r => strictEq (deref s.heap r).status (.str "Completed"))).length

/-- The percentage `updateProgress` computes in state `s`. -/
def progressOf (s : State) : ℤ := percentage (completedCount s) s.assignments.length

/-- The function `updateProgress`. -/
def updateProgress (s : State) : State :=
  let p := progressOf s
  match s.progressBar with
  | some _ =>
    let bar : ProgressBar := ⟨numberToString p ++ "%", numberToString p ++ "% Complete"⟩
    { s with progressBar := some bar }
  | none => s

/-! ## Rendering helpers -/

/-- The methods every object inherits from `Object.prototype`. -/
def inheritedMethods : List String :=
  ["__defineGetter__", "__defineSetter__", "hasOwnProperty", "__lookupGetter__",
   "__lookupSetter__", "isPrototypeOf", "propertyIsEnumerable", "toString", "valueOf",
   "toLocaleString"]

/-- The text of a built-in function in a template literal, in the form V8 prints it. -/
def nativeFunctionText (name : String) : String := "function " ++ name ++ "() \x7b [native code] \x7d"

/-- The function `getTypeClass`, as the text its result contributes to the card:
`typeMap[type] || 'assignment'` is the style class of a type that is a key of the table, the
inherited property for a type that names one (`constructor` is the function `Object`,
`__proto__` the prototype object, the others are methods), and `'assignment'` otherwise. -/
def getTypeClass (type : JSVal) : String :=
  let key := toStr type
  if key = "Test/Quiz" then "test-quiz"
  else if key = "Project" then "project"
  else if key = "Homework" then "homework"
  else if key = "Reading" then "reading"
  else if key = "Classwork" then "classwork"
  else if key = "Participation" then "participation"
  else if key = "constructor" then nativeFunctionText "Object"
  else if key = "__proto__" then "[object Object]"
  else if key ∈ inheritedMethods then nativeFunctionText key
  else "assignment"

/-- The function `formatDueDate`. -/
def formatDueDate (a : Assignment) : JSVal :=
  match a.daysUntilDue with
  | .num days =>
    if days < 0 then .str ("⚠️ Overdue by " ++ numberToString (|days|) ++ " days")
    else if days = 0 then .str "🔴 Due Today"
    else if days = 1 then .str "🟡 Due Tomorrow"
    else if days ≤ 3 then .str ("🟡 Due in " ++ numberToString days ++ " days")
    else .str ("Due in " ++ numberToString days ++ " days")
  | _ => orElse a.dueDate (.str "No due date")

/-- How the serialisation of a text node (`innerHTML`) writes one character. -/
def escapeChar (c : Char) : List Char :=
  if c = '&' then "&amp;".toList
  else if c = '<' then "&lt;".toList
  else if c = '>' then "&gt;".toList
  else if c.toNat = 0xA0 then "&nbsp;".toList
  else [c]

/-- The function `escapeHtml`: `str || ''` becomes the text of a fresh element, whose
`innerHTML` is read back. -/
def escapeHtml (v : JSVal) : String :=
  String.mk ((toStr (orElse v (.str ""))).toList.flatMap escapeChar)

/-- The test `assignment.status === 'Completed'`. -/
def isCompleted (a : Assignment) : Bool := strictEq a.status (.str "Completed")

/-- The description block of a card, present only for a truthy description. -/
def descriptionBlock (a : Assignment) : String :=
  if a.description.truthy then
    "<div class=\"assignment-description\">" ++ escapeHtml a.description ++ "</div>"
  else ""

/-- The function `renderAssignmentCard`: the markup of one card. -/
def renderAssignmentCard (a : Assignment) : String :=
  let typeClass := getTypeClass a.type
  let completed := isCompleted a
  "\n        <div class=\"assignment-card " ++ typeClass ++ " "
    ++ (if completed then "completed" else "")
    ++ "\">\n            <div class=\"assignment-header\">\n                <input type=\"checkbox\" \n                       class=\"checkbox-complete\"\n                       "
    ++ (if completed then "checked" else "")
    ++ " \n                       onchange=\"updateStatus('" ++ toStr a.uid
    ++ "', this.checked)\">\n                <div class=\"assignment-title\">"
    ++ escapeHtml a.title
    ++ "</div>\n                <span class=\"type-badge " ++ typeClass ++ "\">"
    ++ toStr (orElse a.type (.str "Assignment"))
    ++ "</span>\n            </div>\n            <div class=\"assignment-details\">\n                <span class=\"detail-item\">📚 "
    ++ escapeHtml a.category
    ++ "</span>\n                <span class=\"detail-item\">📅 "
    ++ toStr (formatDueDate a)
    ++ "</span>\n                <span class=\"detail-item\">⚡ "
    ++ toStr a.priority
    ++ "</span>\n            </div>\n            "
    ++ descriptionBlock a
    ++ "\n        </div>\n    "

/-- The value of the `onchange` attribute the card of `uid` carries, which is also the value
the selector of `updateStatus` looks for.  (Uids are identifiers without quote or backslash
characters, for which the attribute and the selector are well-formed and read literally.) -/
def onchangeOf (uid : String) : String := "updateStatus('" ++ uid ++ "', this.checked)"

/-- The checkbox the parsed card of a record contributes to the page.  This reads the card as
the browser does only for records whose unescaped fields (uid, type, priority, due date) hold
no markup characters (`<`, `&`, quotes): such characters would change the attribute or add
elements.  No statement below depends on the checkboxes `render` produces. -/
def checkboxOf (a : Assignment) : Checkbox :=
  { onchange := onchangeOf (toStr a.uid), checked := isCompleted a }

/-! ## Sorting and `render` -/

/-- The sort key of `render`: the number of days, `9999` for anything that is not a number. -/
def sortKey (a : Assignment) : Int :=
  match a.daysUntilDue with
  | .num d => d
  | _ => 9999

/-- The comparator passed to `filtered.sort`: `aDays - bDays`. -/
def compareDays (a b : Assignment) : Int := sortKey a - sortKey b

/-- The method `Array.prototype.sort` with a comparator: a stable sort, `a` staying before `b`
unless `cmp a b > 0`.  For a consistent comparator every stable sort gives this order. -/
def arraySort {α : Type} (cmp : α → α → Int) (l : List α) : List α :=
  l.insertionSort (fun a b => cmp a b ≤ 0)

/-- The in-place sort of `render` applied to an array of references. -/
def sortByDue (heap : List Assignment) (refs : List Nat) : List Nat :=
  arraySort (fun r₁ r₂ => compareDays (deref heap r₁) (deref heap r₂)) refs

/-- The function `render`. -/
def render (s : State) : State :=
  if s.filtered.length = 0 then
    updateProgress { s with
      listHTML := "<div class=\"no-assignments\">No assignments found!</div>"
      checkboxes := [] }
  else
    let sorted := sortByDue s.heap s.filtered
    updateProgress { s with
      filtered := sorted
      listHTML := String.join ((records s.heap sorted).map renderAssignmentCard)
      checkboxes := (records s.heap sorted).map checkboxOf }

/-! ## Filtering -/

/-- The callback of `applyFilters`: three guarded early returns. -/
def passesFilters (subject type status : String) (a : Assignment) : Bool :=
  if subject ≠ "all" ∧ !strictEq a.category (.str subject) then false
  else if type ≠ "all" ∧ !strictEq a.type (.str type) then false
  else if status ≠ "all" ∧ !strictEq a.status (.str status) then false
  else true

/-- The assignment `filtered = assignments.filter(...)` of `applyFilters`, before `render`. -/
def applyFiltersSelect (s : State) : State :=
  let keep := fun r => passesFilters s.subjectFilter s.typeFilter s.statusFilter (deref s.heap r)
  { s with filtered := s.assignments.filter keep }

/-- The function `applyFilters`: the criteria are the values of the three select controls. -/
def applyFilters (s : State) : State := render (applyFiltersSelect s)

/-- The function `showTodayOnly`. -/
def showTodayOnly (s : State) : State :=
  let keep := fun r => strictEq (deref s.heap r).daysUntilDue (.num 0)
  render { s with filtered := s.assignments.filter keep }

/-- The callback of `showThisWeek`: `a.daysUntilDue >= 0 && a.daysUntilDue <= 7`. -/
def dueThisWeek (a : Assignment) : Bool := geNum a.daysUntilDue 0 && leNum a.daysUntilDue 7

/-- The function `showThisWeek`. -/
def showThisWeek (s : State) : State :=
  let keep := fun r => dueThisWeek (deref s.heap r)
  render { s with filtered := s.assignments.filter keep }

/-! ## Status updates -/

/-- The function `showFeedback`: a message element is appended to the page. -/
def showFeedback (s : State) (message : String) : State :=
  { s with feedback := s.feedback ++ [message] }

/-- Setting `checked` on the first checkbox whose `onchange` attribute has the given value,
the element `document.querySelector` returns; nothing happens without a match. -/
def setFirstChecked (onchange : String) (value : Bool) : List Checkbox → List Checkbox
  | [] => []
  | c :: cs =>
    if c.onchange = onchange then { c with checked := value } :: cs
    else c :: setFirstChecked onchange value cs

/-- The reference `assignments.find(a => a.uid === uid)` returns, if any. -/
def findByUid (s : State) (uid : String) : Option Nat :=
  s.assignments.find? (fun r => strictEq (deref s.heap r).uid (.str uid))

/-- The function `updateStatus`.  The outcome of the awaited `apiCall` is an argument:
`.ok ()` for a successful envelope, `.error msg` when the request failed or the envelope had
`success = false`, in which case `apiCall` has already shown `msg` as feedback. -/
def updateStatus (s : State) (uid : String) (isChecked : Bool) (reply : Except String Unit) :
    State :=
  let newStatus := if isChecked then "Completed" else "Not Started"
  match reply with
  | .ok _ =>
    let heap :=
      match findByUid s uid with
      | some r => s.heap.set r { deref s.heap r with status := .str newStatus }
      | none => s.heap
    render (showFeedback { s with heap := heap }
      (if isChecked then "✅ Marked as complete!" else "📌 Marked as incomplete"))
  | .error msg =>
    let s₁ := showFeedback s ("❌ Error: " ++ msg)
    { s₁ with checkboxes := setFirstChecked (onchangeOf uid) (!isChecked) s₁.checkboxes }

/-! ## Session gate -/

/-- The function `showApp`. -/
def showApp (s : State) : State := { s with loginDisplay := "none", appDisplay := "block" }

/-- The part of `loadAssignments` that runs before its first `await`: the loading placeholder
replaces the list and the `getAssignments` request is issued. -/
def loadAssignmentsStart (s : State) : State :=
  { s with
    listHTML := "<div class=\"loading\">Loading your assignments...</div>"
    checkboxes := []
    loadsStarted := s.loadsStarted + 1 }

/-- The function `handleCredentialResponse`, from the decoded `email` on.  The allow-list
`CONFIG.ALLOWED_EMAILS` is defined outside this file and is an argument. -/
def handleCredentialResponse (allowedEmails : List JSVal) (email : JSVal) (s : State) : State :=
  if allowedEmails.contains email then
    loadAssignmentsStart (showApp { s with currentUser := email, storedEmail := some (toStr email) })
  else
    let message := "Sorry, your email is not authorized to access this dashboard."
    { s with alerts := s.alerts ++ [message] }

/-! ## Statements of the specification, in its own words -/

/-- The criteria of the filter as the specification words them: every dimension is either the
wildcard `all` or equal to the record's field. -/
def meetsCriteria (subject type status : String) (a : Assignment) : Prop :=
  (subject = "all" ∨ a.category = .str subject) ∧
  (type = "all" ∨ a.type = .str type) ∧
  (status = "all" ∨ a.status = .str status)

instance (subject type status : String) (a : Assignment) :
    Decidable (meetsCriteria subject type status a) := by
  unfold meetsCriteria; infer_instance

/-- The order the specification asks between a rendered record `a` and a later one `b`:
numbers of days do not decrease, and a record without a number of days does not come before
one with a number. -/
def claimedBefore (a b : Assignment) : Prop :=
  match a.daysUntilDue, b.daysUntilDue with
  | .num x, .num y => x ≤ y
  | .num _, _ => True
  | _, .num _ => False
  | _, _ => True

instance : DecidableRel claimedBefore := fun a b => by
  unfold claimedBefore; split <;> infer_instance

/-- The order the specification asks of the rendered records. -/
def numbersAscendingThenRest (l : List Assignment) : Prop := l.Pairwise claimedBefore

instance (l : List Assignment) : Decidable (numbersAscendingThenRest l) := by
  unfold numbersAscendingThenRest; infer_instance

/-- The urgency label of the specification's table for a number of days `d`. -/
def urgencyLabel (d : Int) : String :=
  if d < 0 then "Overdue by " ++ numberToString (|d|) ++ " days"
  else if d = 0 then "Due Today"
  else if d = 1 then "Due Tomorrow"
  else "Due in " ++ numberToString d ++ " days"

/-- The urgency markers a label may start with: none, or an emoji followed by a space. -/
def urgencyMarkers : List String := ["", "⚠️ ", "🔴 ", "🟡 "]

/-- Access is granted for `email` between the states `s` and `s'`, in the specification's
words: the email is the current user and is persisted under `user_email`, the app view is
shown, the login view hidden, and one more data load has been started. -/
def accessGranted (email : JSVal) (s s' : State) : Prop :=
  s'.currentUser = email ∧ s'.storedEmail = some (toStr email) ∧
  s'.appDisplay = "block" ∧ s'.loginDisplay = "none" ∧ s'.loadsStarted = s.loadsStarted + 1

/-- The percentage of the specification: `0` without assignments, otherwise the integer
nearest to `100 * c / n`, halves rounded up. -/
def nearestPercent (c n : Nat) : ℤ :=
  if n = 0 then 0 else ⌊(100 * (c : ℚ) / (n : ℚ)) + 1 / 2⌋

/-! ## Example states -/

/-- The example state of two assignments, the first due in five days and the second in one,
with all three select controls on `all`. -/
def twoOutOfOrder : State :=
  { heap := [{ uid := .str "a", daysUntilDue := .num 5 }, { uid := .str "b", daysUntilDue := .num 1 }]
    assignments := [0, 1] }

/-- A filtered view of two assignments, one due in ten thousand days and one without a
`daysUntilDue`, in that order. -/
def farAndUndated : State :=
  { heap := [{ uid := .str "far", daysUntilDue := .num 10000 },
             { uid := .str "undated", daysUntilDue := .null }]
    assignments := [0, 1]
    filtered := [0, 1] }

/-- The values of `daysUntilDue` of the specification's sorting example, `[5, -2, 0, null, 1]`. -/
def sortingExample : State :=
  { heap := [{ daysUntilDue := .num 5 }, { daysUntilDue := .num (-2) }, { daysUntilDue := .num 0 },
             { daysUntilDue := .null }, { daysUntilDue := .num 1 }]
    assignments := [0, 1, 2, 3, 4]
    filtered := [0, 1, 2, 3, 4] }

/-- A rendered state of two assignments, the first completed, with one checkbox each. -/
def twoCards : State :=
  { heap := [{ uid := .str "u1", status := .str "Completed" },
             { uid := .str "u2", status := .str "Not Started" }]
    assignments := [0, 1]
    filtered := [0, 1]
    checkboxes := [{ onchange := "updateStatus('u1', this.checked)", checked := true },
                   { onchange := "updateStatus('u2', this.checked)", checked := true }] }

/-- Three assignments, two of them in Math, with the subject control on `Math`. -/
def mathSelected : State :=
  { heap := [{ uid := .str "m1", category := .str "Math", daysUntilDue := .num 3 },
             { uid := .str "a1", category := .str "Art", daysUntilDue := .num 1 },
             { uid := .str "m2", category := .str "Math", daysUntilDue := .num 0 }]
    assignments := [0, 1, 2]
    subjectFilter := "Math" }

/-- Six assignments whose `daysUntilDue` are `0`, the string `'0'`, `null`, missing, `0`
and `3`. -/
def todayMix : State :=
  { heap := [{ uid := .str "a", daysUntilDue := .num 0 }, { uid := .str "b", daysUntilDue := .str "0" },
             { uid := .str "c", daysUntilDue := .null }, { uid := .str "d" },
             { uid := .str "e", daysUntilDue := .num 0 }, { uid := .str "f", daysUntilDue := .num 3 }]
    assignments := [0, 1, 2, 3, 4, 5] }

/-- Forty assignments of which the first twenty-three are completed, none of them in the
filtered view, on a page with a progress bar. -/
def twentyThreeOfForty : State :=
  { heap := List.replicate 23 { status := .str "Completed" }
      ++ List.replicate 17 { status := .str "Not Started" }
    assignments := List.range 40
    progressBar := some ⟨"", ""⟩ }

/-- Four assignments of which the second is completed, on a page with a progress bar. -/
def oneOfFour : State :=
  { heap := [{ status := .str "Not Started" }, { status := .str "Completed" },
             { status := .str "In Progress" }, {}]
    assignments := [0, 1, 2, 3]
    filtered := [2]
    progressBar := some ⟨"", ""⟩ }

/-! ## Lemmas on the sort of `render` -/

theorem compareDays_le_iff (a b : Assignment) : compareDays a b ≤ 0 ↔ sortKey a ≤ sortKey b := by
  unfold compareDays; omega

theorem sortByDue_perm (heap : List Assignment) (l : List Nat) : (sortByDue heap l).Perm l :=
  List.perm_insertionSort _ l

theorem sortByDue_sorted (heap : List Assignment) (l : List Nat) :
    (sortByDue heap l).Pairwise
      (fun r₁ r₂ => sortKey (deref heap r₁) ≤ sortKey (deref heap r₂)) := by
  haveI : IsTotal Nat (fun r₁ r₂ => compareDays (deref heap r₁) (deref heap r₂) ≤ 0) :=
    ⟨fun a b => by simp only [compareDays_le_iff]; exact le_total _ _⟩
  haveI : IsTrans Nat (fun r₁ r₂ => compareDays (deref heap r₁) (deref heap r₂) ≤ 0) :=
    ⟨fun a b c h₁ h₂ => by simp only [compareDays_le_iff] at *; exact le_trans h₁ h₂⟩
  have h := List.sorted_insertionSort
    (fun r₁ r₂ => compareDays (deref heap r₁) (deref heap r₂) ≤ 0) l
  exact List.Pairwise.imp (fun {a b} hab => (compareDays_le_iff _ _).1 hab) h

theorem sortByDue_eq_self (heap : List Assignment) (l : List Nat)
    (h : l.Pairwise (fun r₁ r₂ => sortKey (deref heap r₁) ≤ sortKey (deref heap r₂))) :
    sortByDue heap l = l := by
  have h' : List.Sorted (fun r₁ r₂ => compareDays (deref heap r₁) (deref heap r₂) ≤ 0) l :=
    List.Pairwise.imp (fun {a b} hab => (compareDays_le_iff _ _).2 hab) h
  exact h'.insertionSort_eq

theorem sortByDue_stable (heap : List Assignment) (l c : List Nat) (hc : c.Sublist l)
    (h : c.Pairwise (fun r₁ r₂ => sortKey (deref heap r₁) ≤ sortKey (deref heap r₂))) :
    c.Sublist (sortByDue heap l) := by
  have h' : c.Pairwise (fun r₁ r₂ => compareDays (deref heap r₁) (deref heap r₂) ≤ 0) :=
    List.Pairwise.imp (fun {a b} hab => (compareDays_le_iff _ _).2 hab) h
  exact List.sublist_insertionSort h' hc

/-! ## Lemmas on `render` and `updateProgress` -/

theorem updateProgress_heap (s : State) : (updateProgress s).heap = s.heap := by
  unfold updateProgress; cases s.progressBar <;> rfl

theorem updateProgress_assignments (s : State) :
    (updateProgress s).assignments = s.assignments := by
  unfold updateProgress; cases s.progressBar <;> rfl

theorem updateProgress_filtered (s : State) : (updateProgress s).filtered = s.filtered := by
  unfold updateProgress; cases s.progressBar <;> rfl

theorem updateProgress_listHTML (s : State) : (updateProgress s).listHTML = s.listHTML := by
  unfold updateProgress; cases s.progressBar <;> rfl

theorem render_heap (s : State) : (render s).heap = s.heap := by
  unfold render; split <;> simp [updateProgress_heap]

theorem render_assignments (s : State) : (render s).assignments = s.assignments := by
  unfold render; split <;> simp [updateProgress_assignments]

theorem render_filtered (s : State) : (render s).filtered = sortByDue s.heap s.filtered := by
  unfold render
  split
  · rename_i h
    have h0 : s.filtered = [] := List.length_eq_zero.1 h
    simp [updateProgress_filtered, h0, sortByDue, arraySort]
  · simp [updateProgress_filtered]

/-! ## Filter engine -/

theorem passesFilters_iff (subject type status : String) (a : Assignment) :
    passesFilters subject type status a = true ↔ meetsCriteria subject type status a := by
  unfold passesFilters meetsCriteria strictEq
  by_cases h₁ : subject = "all" <;> by_cases h₂ : type = "all" <;>
    by_cases h₃ : status = "all" <;>
    by_cases c₁ : a.category = .str subject <;> by_cases c₂ : a.type = .str type <;>
    by_cases c₃ : a.status = .str status <;> simp [h₁, h₂, h₃, c₁, c₂, c₃]

/-- C1, as stated, fails: with all three criteria `all`, `applyFilters` leaves in `filtered`
the assignments in the order of the sort its `render` call performs, not in the order of
`assignments`: the record due in one day comes before the record due in five. -/
theorem applyFilters_reorders :
    (applyFilters twoOutOfOrder).filtered = [1, 0] ∧
    records (applyFilters twoOutOfOrder).heap (applyFilters twoOutOfOrder).filtered ≠
      records twoOutOfOrder.heap twoOutOfOrder.assignments := by
  decide

/-- C1, amended: the filter statement of `applyFilters` assigns to `filtered` exactly the
sub-sequence of `assignments`, in its order, of the records meeting the three criteria (all of
`assignments` when the three are `all`); the `render` call that ends `applyFilters` then sorts
that array in place, so on return `filtered` is its stable sort by due-date key: the same
entries, in ascending key order, equal to the sub-sequence exactly when that is already in
ascending key order, and in general keeping the relative order of any entries whose keys do
not decrease. -/
theorem applyFilters_filtered (s : State) :
    (applyFiltersSelect s).filtered = s.assignments.filter
        (fun r => decide (meetsCriteria s.subjectFilter s.typeFilter s.statusFilter
          (deref s.heap r))) ∧
    records s.heap (applyFiltersSelect s).filtered = (records s.heap s.assignments).filter
        (fun a => decide (meetsCriteria s.subjectFilter s.typeFilter s.statusFilter a)) ∧
    ((applyFiltersSelect s).filtered).Sublist s.assignments ∧
    (s.subjectFilter = "all" → s.typeFilter = "all" → s.statusFilter = "all" →
      (applyFiltersSelect s).filtered = s.assignments) ∧
    (applyFilters s).heap = s.heap ∧ (applyFilters s).assignments = s.assignments ∧
    (applyFilters s).filtered = sortByDue s.heap (applyFiltersSelect s).filtered ∧
    ((applyFilters s).filtered).Perm (applyFiltersSelect s).filtered ∧
    (((applyFiltersSelect s).filtered).Pairwise
        (fun r₁ r₂ => sortKey (deref s.heap r₁) ≤ sortKey (deref s.heap r₂)) →
      (applyFilters s).filtered = (applyFiltersSelect s).filtered) ∧
    (∀ c : List Nat, c.Sublist (applyFiltersSelect s).filtered →
      c.Pairwise (fun r₁ r₂ => sortKey (deref s.heap r₁) ≤ sortKey (deref s.heap r₂)) →
      c.Sublist (applyFilters s).filtered) ∧
    ((applyFilters s).filtered).Pairwise
      (fun r₁ r₂ => sortKey (deref s.heap r₁) ≤ sortKey (deref s.heap r₂)) ∧
    ((applyFilters s).filtered = (applyFiltersSelect s).filtered ↔
      ((applyFiltersSelect s).filtered).Pairwise
        (fun r₁ r₂ => sortKey (deref s.heap r₁) ≤ sortKey (deref s.heap r₂))) := by
  have hsel : (applyFiltersSelect s).filtered = s.assignments.filter
      (fun r => decide (meetsCriteria s.subjectFilter s.typeFilter s.statusFilter
        (deref s.heap r))) := by
    show s.assignments.filter _ = _
    apply List.filter_congr
    intro r _
    rw [Bool.eq_iff_iff, passesFilters_iff]
    simp
  have hfin : (applyFilters s).filtered = sortByDue s.heap (applyFiltersSelect s).filtered := by
    show (render (applyFiltersSelect s)).filtered = _
    rw [render_filtered]; rfl
  have hsorted : ((applyFilters s).filtered).Pairwise
      (fun r₁ r₂ => sortKey (deref s.heap r₁) ≤ sortKey (deref s.heap r₂)) := by
    rw [hfin]; exact sortByDue_sorted _ _
  refine ⟨hsel, ?_, ?_, ?_, ?_, ?_, hfin, ?_, ?_, ?_, hsorted, ?_⟩
  · rw [hsel]; simp [records, List.filter_map, Function.comp_def]
  · rw [hsel]; exact List.filter_sublist _
  · intro h₁ h₂ h₃
    rw [hsel, List.filter_eq_self]
    intro r _
    simp [meetsCriteria, h₁, h₂, h₃]
  · show (render (applyFiltersSelect s)).heap = _
    rw [render_heap]; rfl
  · show (render (applyFiltersSelect s)).assignments = _
    rw [render_assignments]; rfl
  · rw [hfin]; exact sortByDue_perm _ _
  · intro h; rw [hfin]; exact sortByDue_eq_self _ _ h
  · intro c hc h; rw [hfin]; exact sortByDue_stable _ _ _ hc h
  · constructor
    · intro h; rw [← h]; exact hsorted
    · intro h; rw [hfin]; exact sortByDue_eq_self _ _ h

/-- The amended C1 at examples: with the subject `Math` the filter statement selects the
first and third assignment, which `render` then puts in due-date order; with all three criteria
`all` the selection is `assignments` itself. -/
theorem applyFilters_filtered_witness :
    (applyFiltersSelect mathSelected).filtered = [0, 2] ∧
    (applyFilters mathSelected).filtered = [2, 0] ∧
    ((applyFilters mathSelected).filtered).Perm (applyFiltersSelect mathSelected).filtered ∧
    (applyFiltersSelect twoOutOfOrder).filtered = twoOutOfOrder.assignments ∧
    ((applyFilters mathSelected).filtered).Pairwise
      (fun r₁ r₂ => sortKey (deref mathSelected.heap r₁) ≤ sortKey (deref mathSelected.heap r₂)) :=
  ⟨by decide, by decide, (applyFilters_filtered mathSelected).2.2.2.2.2.2.2.1,
    (applyFilters_filtered twoOutOfOrder).2.2.2.1 rfl rfl rfl,
    (applyFilters_filtered mathSelected).2.2.2.2.2.2.2.2.2.2.1⟩

/-- C9: `showTodayOnly` leaves in `filtered` exactly the entries of `assignments`, in their
order, whose `daysUntilDue` is the number `0` (the sort of its `render` call moves nothing,
all keys being equal), so no record whose `daysUntilDue` is missing or not a number is kept;
`assignments` and the records themselves are untouched. -/
theorem showTodayOnly_filtered (s : State) :
    (showTodayOnly s).heap = s.heap ∧ (showTodayOnly s).assignments = s.assignments ∧
    (showTodayOnly s).filtered =
      s.assignments.filter (fun r => decide ((deref s.heap r).daysUntilDue = .num 0)) ∧
    records (showTodayOnly s).heap (showTodayOnly s).filtered =
      (records s.heap s.assignments).filter (fun a => decide (a.daysUntilDue = .num 0)) ∧
    (∀ a ∈ records (showTodayOnly s).heap (showTodayOnly s).filtered,
      a.daysUntilDue.isNumber = true ∧ a.daysUntilDue ≠ .null ∧
      a.daysUntilDue ≠ .undefined ∧ ∀ t, a.daysUntilDue ≠ .str t) := by
  have hheap : (showTodayOnly s).heap = s.heap := by
    unfold showTodayOnly; simp only [render_heap]
  have hfil : (showTodayOnly s).filtered =
      s.assignments.filter (fun r => decide ((deref s.heap r).daysUntilDue = .num 0)) := by
    unfold showTodayOnly
    simp only [render_filtered]
    apply sortByDue_eq_self
    apply List.pairwise_of_forall_mem_list
    intro a ha b hb
    simp only [List.mem_filter, strictEq, decide_eq_true_eq] at ha hb
    simp [sortKey, ha.2, hb.2]
  have hrec : records (showTodayOnly s).heap (showTodayOnly s).filtered =
      (records s.heap s.assignments).filter (fun a => decide (a.daysUntilDue = .num 0)) := by
    rw [hheap, hfil]; simp [records, List.filter_map, Function.comp_def]
  refine ⟨hheap, ?_, hfil, hrec, ?_⟩
  · unfold showTodayOnly; simp only [render_assignments]
  · intro a ha
    rw [hrec] at ha
    simp only [List.mem_filter, decide_eq_true_eq] at ha
    simp [ha.2, isNumber]

/-- C9 at an example: of six assignments only the two whose `daysUntilDue` is the number `0`
are kept, in their order; the string `'0'`, `null` and a missing value are not. -/
theorem showTodayOnly_filtered_witness :
    (showTodayOnly todayMix).filtered = [0, 4] ∧
    (({ uid := .str "e", daysUntilDue := .num 0 } : Assignment).daysUntilDue.isNumber = true ∧
      ({ uid := .str "e", daysUntilDue := .num 0 } : Assignment).daysUntilDue ≠ .null ∧
      ({ uid := .str "e", daysUntilDue := .num 0 } : Assignment).daysUntilDue ≠ .undefined ∧
      ∀ t, ({ uid := .str "e", daysUntilDue := .num 0 } : Assignment).daysUntilDue ≠ .str t) :=
  ⟨by decide,
    (showTodayOnly_filtered todayMix).2.2.2.2 { uid := .str "e", daysUntilDue := .num 0 }
      (by decide)⟩

/-- C2 fails on the code: an assignment whose `daysUntilDue` is `null` is kept by
`showThisWeek`, because `null >= 0 && null <= 7` compares the number `0`; the numeric string
`'3'` is kept the same way, while a missing `daysUntilDue` is dropped. -/
theorem showThisWeek_keeps_null :
    (showThisWeek { heap := [{ uid := .str "u1", daysUntilDue := .null }],
                    assignments := [0] }).filtered = [0] ∧
    (showThisWeek { heap := [{ uid := .str "u2", daysUntilDue := .str "3" }],
                    assignments := [0] }).filtered = [0] ∧
    (showThisWeek { heap := [{ uid := .str "u3" }], assignments := [0] }).filtered = [] := by
  decide

/-! ## Renderer: order of the cards -/

/-- C3, as stated, fails: the record without a number of days is rendered before the record
due in ten thousand days, because its sort key is the sentinel `9999`. -/
theorem render_sentinel_before_far :
    records (render farAndUndated).heap (render farAndUndated).filtered =
      [{ uid := .str "undated", daysUntilDue := .null },
       { uid := .str "far", daysUntilDue := .num 10000 }] ∧
    ¬ numbersAscendingThenRest
      (records (render farAndUndated).heap (render farAndUndated).filtered) := by
  decide

/-- C3, amended: for a non-empty `filtered`, `render` emits one card per record in an order
that is a permutation of `filtered`, in which the numbers of days do not decrease, a record
whose `daysUntilDue` is not a number comes after every record with a number below `9999`
(it may precede only numbers from `9999` on) and before every record with a number above
`9999`; ties keep the order of `filtered`. -/
theorem render_order (s : State) (h : s.filtered ≠ []) :
    (records (render s).heap (render s).filtered).Perm (records s.heap s.filtered) ∧
    (render s).listHTML =
      String.join ((records (render s).heap (render s).filtered).map renderAssignmentCard) ∧
    (records (render s).heap (render s).filtered).Pairwise
      (fun a b => ∀ x y, a.daysUntilDue = .num x → b.daysUntilDue = .num y → x ≤ y) ∧
    (records (render s).heap (render s).filtered).Pairwise
      (fun a b => a.daysUntilDue.isNumber = false → ∀ y, b.daysUntilDue = .num y → 9999 ≤ y) ∧
    (records (render s).heap (render s).filtered).Pairwise
      (fun a b => b.daysUntilDue.isNumber = false → ∀ x, a.daysUntilDue = .num x → x ≤ 9999) ∧
    (∀ c : List Nat, c.Sublist s.filtered →
      c.Pairwise (fun r₁ r₂ => sortKey (deref s.heap r₁) ≤ sortKey (deref s.heap r₂)) →
      c.Sublist (render s).filtered) := by
  have hkey : (records (render s).heap (render s).filtered).Pairwise
      (fun a b => sortKey a ≤ sortKey b) := by
    rw [render_heap, render_filtered]
    unfold records
    rw [List.pairwise_map]
    exact sortByDue_sorted _ _
  refine ⟨?_, ?_, ?_, ?_, ?_, ?_⟩
  · rw [render_heap, render_filtered]
    exact (sortByDue_perm _ _).map _
  · have hlen : ¬ s.filtered.length = 0 := fun h0 => h (List.length_eq_zero.1 h0)
    rw [render_heap, render_filtered]
    unfold render
    simp only [hlen, if_false, updateProgress_listHTML]
  · refine hkey.imp ?_
    intro a b hab x y hx hy
    simpa [sortKey, hx, hy] using hab
  · refine hkey.imp ?_
    intro a b hab ha y hy
    cases hd : a.daysUntilDue <;> simp [sortKey, hd, hy, isNumber] at hab ha ⊢ <;> exact hab
  · refine hkey.imp ?_
    intro a b hab hb x hx
    cases hd : b.daysUntilDue <;> simp [sortKey, hd, hx, isNumber] at hab hb ⊢ <;> exact hab
  · intro c hc hp
    rw [render_filtered]
    exact sortByDue_stable _ _ _ hc hp

/-- The amended C3 at the specification's example: the values `[5, -2, 0, null, 1]` are
rendered in the order `-2, 0, 1, 5, null`. -/
theorem render_order_witness :
    sortingExample.filtered ≠ [] ∧
    (records (render sortingExample).heap (render sortingExample).filtered).map
        (fun a => a.daysUntilDue) = [.num (-2), .num 0, .num 1, .num 5, .null] ∧
    (records (render sortingExample).heap (render sortingExample).filtered).Perm
      (records sortingExample.heap sortingExample.filtered) :=
  ⟨by decide, by decide, (render_order sortingExample (by decide)).1⟩

/-! ## Renderer: due-date label -/

/-- C4, as stated, fails: when `daysUntilDue` is not a number and `dueDate` is a number or
`true`, `formatDueDate` returns that value as it is, which is neither a `dueDate` string nor
`No due date`. -/
theorem formatDueDate_raw_dueDate :
    formatDueDate { daysUntilDue := .null, dueDate := .num 20250131 } = .num 20250131 ∧
    formatDueDate { daysUntilDue := .null, dueDate := .num 20250131 } ≠ .str "No due date" ∧
    formatDueDate { dueDate := .bool true } = .bool true ∧
    formatDueDate { dueDate := .bool true } ≠ .str "No due date" := by
  decide

/-- C4, amended: for a number of days `d` (a safe integer, printed as its decimal digits),
`formatDueDate` returns the label of the specification's table (`Overdue by |d| days`,
`Due Today`, `Due Tomorrow`, `Due in d days`) after one of the urgency markers (none, or an
emoji and a space); when `daysUntilDue` is not a number it returns the record's `dueDate` as
it is if that is truthy, in particular a non-empty `dueDate` string, and `No due date`
otherwise, that is when the `dueDate` is missing, `null`, the empty string, `0` or `false`. -/
theorem formatDueDate_label (a : Assignment) :
    (∀ d, a.daysUntilDue = .num d → isSafeInteger d →
      ∃ marker ∈ urgencyMarkers, formatDueDate a = .str (marker ++ urgencyLabel d)) ∧
    (a.daysUntilDue.isNumber = false →
      (a.dueDate.truthy = true → formatDueDate a = a.dueDate) ∧
      (a.dueDate.truthy = false → formatDueDate a = .str "No due date") ∧
      (∀ t, a.dueDate = .str t → t ≠ "" → formatDueDate a = .str t) ∧
      (a.dueDate = .str "" ∨ a.dueDate = .null ∨ a.dueDate = .undefined ∨
          a.dueDate = .num 0 ∨ a.dueDate = .bool false →
        formatDueDate a = .str "No due date")) := by
  constructor
  · intro d hd _
    unfold formatDueDate urgencyLabel urgencyMarkers
    rw [hd]
    by_cases h₁ : d < 0
    · refine ⟨"⚠️ ", by simp, ?_⟩
      simp only [h₁, if_true]
      rfl
    · by_cases h₂ : d = 0
      · refine ⟨"🔴 ", by simp, ?_⟩
        simp only [h₂]
        rfl
      · by_cases h₃ : d = 1
        · refine ⟨"🟡 ", by simp, ?_⟩
          simp only [h₃]
          rfl
        · by_cases h₄ : d ≤ 3
          · refine ⟨"🟡 ", by simp, ?_⟩
            simp only [h₁, h₂, h₃, h₄, if_true, if_false]
            rfl
          · refine ⟨"", by simp, ?_⟩
            simp only [h₁, h₂, h₃, h₄, if_false]
            rfl
  · intro hn
    have hfmt : formatDueDate a = orElse a.dueDate (.str "No due date") := by
      unfold formatDueDate
      cases hd : a.daysUntilDue <;> simp_all [isNumber]
    refine ⟨?_, ?_, ?_, ?_⟩
    · intro ht
      rw [hfmt]; simp [orElse, ht]
    · intro ht
      rw [hfmt]; simp [orElse, ht]
    · intro t ht hne
      rw [hfmt, ht]
      simp [orElse, truthy, hne]
    · intro h
      rw [hfmt]
      rcases h with h | h | h | h | h <;> rw [h] <;> decide

/-- The amended C4 at the specification's examples: `-3`, `0`, `1`, `2` and `10` days, and
records without a number of days. -/
theorem formatDueDate_label_witness :
    formatDueDate { daysUntilDue := .num (-3) } = .str "⚠️ Overdue by 3 days" ∧
    formatDueDate { daysUntilDue := .num 0 } = .str "🔴 Due Today" ∧
    formatDueDate { daysUntilDue := .num 1 } = .str "🟡 Due Tomorrow" ∧
    formatDueDate { daysUntilDue := .num 2 } = .str "🟡 Due in 2 days" ∧
    formatDueDate { daysUntilDue := .num 10 } = .str "Due in 10 days" ∧
    formatDueDate { daysUntilDue := .null, dueDate := .str "2025-01-31" } = .str "2025-01-31" ∧
    formatDueDate { daysUntilDue := .null } = .str "No due date" ∧
    (∃ marker ∈ urgencyMarkers,
      formatDueDate { daysUntilDue := .num (-3) } = .str (marker ++ urgencyLabel (-3))) ∧
    formatDueDate { daysUntilDue := .str "soon", dueDate := .num 0 } = .str "No due date" :=
  ⟨by decide, by decide, by decide, by decide, by decide, by decide, by decide,
    (formatDueDate_label { daysUntilDue := .num (-3) }).1 (-3) rfl (by decide),
    ((formatDueDate_label { daysUntilDue := .str "soon", dueDate := .num 0 }).2 rfl).2.1 rfl⟩

/-! ## Renderer: escaping -/

theorem escapeChar_no_angle (c : Char) : '<' ∉ escapeChar c ∧ '>' ∉ escapeChar c := by
  unfold escapeChar
  by_cases h₁ : c = '&'
  · simp only [h₁, if_true]; decide
  · by_cases h₂ : c = '<'
    · simp only [h₂]; decide
    · by_cases h₃ : c = '>'
      · simp only [h₃]; decide
      · by_cases h₄ : c.toNat = 0xA0
        · simp only [h₁, h₂, h₃, h₄, if_true, if_false]; decide
        · simp only [h₁, h₂, h₃, h₄, if_false, List.mem_singleton]
          exact ⟨fun h => h₂ h.symm, fun h => h₃ h.symm⟩

theorem escapeHtml_no_angle (v : JSVal) :
    '<' ∉ (escapeHtml v).toList ∧ '>' ∉ (escapeHtml v).toList := by
  unfold escapeHtml
  simp only [String.toList, List.mem_flatMap, not_exists, not_and]
  exact ⟨fun c _ => (escapeChar_no_angle c).1, fun c _ => (escapeChar_no_angle c).2⟩

/-- C8: the markup of a card depends on the record's title, category and description only
through `escapeHtml` of each (and through whether the description is present): whatever these
three fields are, the card is fixed markup around their escaped forms.  The escaped form of a
string replaces every `<`, `>` and `&` by its character entity, and the escaped form of any
value holds no `<` and no `>`; so a title containing `<script>` adds no tag to the markup. -/
theorem renderAssignmentCard_escapes :
    (∃ head mid₁ mid₂ tail : Assignment → String, ∀ (a : Assignment) (t c d : JSVal),
      renderAssignmentCard { a with title := t, category := c, description := d } =
        head a ++ escapeHtml t ++ mid₁ a ++ escapeHtml c ++ mid₂ a
          ++ (if d.truthy then
                "<div class=\"assignment-description\">" ++ escapeHtml d ++ "</div>"
              else "")
          ++ tail a) ∧
    (∀ t : String, escapeHtml (.str t) = String.mk (t.toList.flatMap escapeChar)) ∧
    escapeChar '<' = "&lt;".toList ∧ escapeChar '>' = "&gt;".toList ∧
    escapeChar '&' = "&amp;".toList ∧
    (∀ v : JSVal, '<' ∉ (escapeHtml v).toList ∧ '>' ∉ (escapeHtml v).toList) ∧
    escapeHtml (.str "<script>alert(1)</script>") = "&lt;script&gt;alert(1)&lt;/script&gt;" := by
  refine ⟨?_, ?_, by decide, by decide, by decide, escapeHtml_no_angle, by decide⟩
  · refine ⟨fun a =>
        "\n        <div class=\"assignment-card " ++ getTypeClass a.type ++ " "
          ++ (if isCompleted a then "completed" else "")
          ++ "\">\n            <div class=\"assignment-header\">\n                <input type=\"checkbox\" \n                       class=\"checkbox-complete\"\n                       "
          ++ (if isCompleted a then "checked" else "")
          ++ " \n                       onchange=\"updateStatus('" ++ toStr a.uid
          ++ "', this.checked)\">\n                <div class=\"assignment-title\">",
      fun a =>
        "</div>\n                <span class=\"type-badge " ++ getTypeClass a.type ++ "\">"
          ++ toStr (orElse a.type (.str "Assignment"))
          ++ "</span>\n            </div>\n            <div class=\"assignment-details\">\n                <span class=\"detail-item\">📚 ",
      fun a =>
        "</span>\n                <span class=\"detail-item\">📅 "
          ++ toStr (formatDueDate a)
          ++ "</span>\n                <span class=\"detail-item\">⚡ "
          ++ toStr a.priority
          ++ "</span>\n            </div>\n            ",
      fun _ => "\n        </div>\n    ", ?_⟩
    intro a t c d
    simp only [renderAssignmentCard, descriptionBlock, isCompleted, formatDueDate,
      String.append_assoc]
  · intro t
    unfold escapeHtml orElse
    by_cases ht : t = ""
    · subst ht; rfl
    · simp [truthy, ht, toStr]

/-! ## Status updater -/

theorem setFirstChecked_append (onchange : String) (value : Bool) (before after : List Checkbox)
    (box : Checkbox) (hbox : box.onchange = onchange)
    (hbefore : ∀ x ∈ before, x.onchange ≠ onchange) :
    setFirstChecked onchange value (before ++ box :: after) =
      before ++ { box with checked := value } :: after := by
  induction before with
  | nil => simp [setFirstChecked, hbox]
  | cons x xs ih =>
    have hx : x.onchange ≠ onchange := hbefore x (List.mem_cons_self _ _)
    have hxs : ∀ y ∈ xs, y.onchange ≠ onchange := fun y hy => hbefore y (List.mem_cons_of_mem _ hy)
    simp [setFirstChecked, hx, ih hxs]

theorem setFirstChecked_none (onchange : String) (value : Bool) (boxes : List Checkbox)
    (h : ∀ x ∈ boxes, x.onchange ≠ onchange) : setFirstChecked onchange value boxes = boxes := by
  induction boxes with
  | nil => rfl
  | cons x xs ih =>
    have hx : x.onchange ≠ onchange := h x (List.mem_cons_self _ _)
    have hxs : ∀ y ∈ xs, y.onchange ≠ onchange := fun y hy => h y (List.mem_cons_of_mem _ hy)
    simp [setFirstChecked, hx, ih hxs]

/-- C6: when the gateway call of `updateStatus` fails, the records, `assignments` and
`filtered` are what they were, the rendered list and the progress bar are not touched (no
re-render), and the first checkbox carrying the handler of this uid, the one the selector
finds, is set to the negation of the toggled value while every other checkbox keeps its
state; without such a checkbox nothing on the page changes but the error notice. -/
theorem updateStatus_failure (s : State) (uid : String) (isChecked : Bool) (msg : String) :
    (updateStatus s uid isChecked (.error msg)).heap = s.heap ∧
    (updateStatus s uid isChecked (.error msg)).assignments = s.assignments ∧
    (updateStatus s uid isChecked (.error msg)).filtered = s.filtered ∧
    records (updateStatus s uid isChecked (.error msg)).heap
        (updateStatus s uid isChecked (.error msg)).assignments
      = records s.heap s.assignments ∧
    (updateStatus s uid isChecked (.error msg)).listHTML = s.listHTML ∧
    (updateStatus s uid isChecked (.error msg)).progressBar = s.progressBar ∧
    (∀ (before after : List Checkbox) (box : Checkbox),
      s.checkboxes = before ++ box :: after → box.onchange = onchangeOf uid →
      (∀ x ∈ before, x.onchange ≠ onchangeOf uid) →
      (updateStatus s uid isChecked (.error msg)).checkboxes =
        before ++ { box with checked := !isChecked } :: after) ∧
    ((∀ x ∈ s.checkboxes, x.onchange ≠ onchangeOf uid) →
      (updateStatus s uid isChecked (.error msg)).checkboxes = s.checkboxes) := by
  refine ⟨rfl, rfl, rfl, rfl, rfl, rfl, ?_, ?_⟩
  · intro before after box hs hbox hbefore
    show setFirstChecked (onchangeOf uid) (!isChecked) s.checkboxes = _
    rw [hs]
    exact setFirstChecked_append _ _ _ _ _ hbox hbefore
  · intro h
    exact setFirstChecked_none _ _ _ h

/-- C6 at an example: the second checkbox was ticked, the call fails, and the checkbox is
cleared again while the first keeps its state and the records are unchanged. -/
theorem updateStatus_failure_witness :
    (updateStatus twoCards "u2" true (.error "API request failed")).checkboxes =
      [{ onchange := "updateStatus('u1', this.checked)", checked := true },
       { onchange := "updateStatus('u2', this.checked)", checked := false }] ∧
    (updateStatus twoCards "u2" true (.error "API request failed")).heap = twoCards.heap :=
  ⟨(updateStatus_failure twoCards "u2" true "API request failed").2.2.2.2.2.2.1
      [{ onchange := "updateStatus('u1', this.checked)", checked := true }] []
      { onchange := "updateStatus('u2', this.checked)", checked := true }
      (by decide) (by decide) (by decide),
    (updateStatus_failure twoCards "u2" true "API request failed").1⟩

theorem deref_uid_lt (heap : List Assignment) (r : Nat) (uid : String)
    (h : (deref heap r).uid = .str uid) : r < heap.length := by
  by_contra hlt
  have hnone : heap[r]? = none := List.getElem?_eq_none (Nat.le_of_not_lt hlt)
  simp [deref, hnone] at h

theorem updateStatus_ok_heap (s : State) (uid : String) (isChecked : Bool) :
    (updateStatus s uid isChecked (.ok ())).heap =
      match findByUid s uid with
      | some r => s.heap.set r
          { deref s.heap r with
            status := .str (if isChecked then "Completed" else "Not Started") }
      | none => s.heap := by
  unfold updateStatus
  simp only [render_heap, showFeedback]

/-- C7: when the gateway call succeeds, `updateStatus` gives the first entry of `assignments`
whose uid is the given one the status `Completed` (box ticked) or `Not Started` (box cleared)
and changes nothing else: every other object and every other field of the patched one are as
before, and `assignments` holds the same references in the same order; when no entry has that
uid the records are all unchanged, and a state results in either case. -/
theorem updateStatus_success (s : State) (uid : String) (isChecked : Bool) :
    (updateStatus s uid isChecked (.ok ())).assignments = s.assignments ∧
    (updateStatus s uid isChecked (.ok ())).heap.length = s.heap.length ∧
    (∀ (before after : List Nat) (r : Nat), s.assignments = before ++ r :: after →
      (deref s.heap r).uid = .str uid → (∀ x ∈ before, (deref s.heap x).uid ≠ .str uid) →
      deref (updateStatus s uid isChecked (.ok ())).heap r =
        { deref s.heap r with
          status := .str (if isChecked then "Completed" else "Not Started") } ∧
      ∀ r', r' ≠ r → deref (updateStatus s uid isChecked (.ok ())).heap r' = deref s.heap r') ∧
    ((∀ r ∈ s.assignments, (deref s.heap r).uid ≠ .str uid) →
      (updateStatus s uid isChecked (.ok ())).heap = s.heap) := by
  refine ⟨?_, ?_, ?_, ?_⟩
  · unfold updateStatus
    simp only [render_assignments, showFeedback]
  · rw [updateStatus_ok_heap]
    cases findByUid s uid <;> simp
  · intro before after r hs huid hbefore
    have hfind : findByUid s uid = some r := by
      unfold findByUid
      rw [List.find?_eq_some]
      refine ⟨by simp [strictEq, huid], before, after, hs, ?_⟩
      intro x hx
      simp [strictEq, hbefore x hx]
    have hlt : r < s.heap.length := deref_uid_lt _ _ _ huid
    rw [updateStatus_ok_heap, hfind]
    constructor
    · simp [deref, hlt]
    · intro r' hne
      simp [deref, List.getElem?_set_ne (Ne.symm hne)]
  · intro h
    have hfind : findByUid s uid = none := by
      unfold findByUid
      rw [List.find?_eq_none]
      intro x hx
      simp [strictEq, h x hx]
    rw [updateStatus_ok_heap, hfind]

/-- C7 at an example: clearing the box of the completed first assignment sets its status to
`Not Started` and leaves the second record as it was. -/
theorem updateStatus_success_witness :
    deref (updateStatus twoCards "u1" false (.ok ())).heap 0 =
      { uid := .str "u1", status := .str "Not Started" } ∧
    (∀ r', r' ≠ 0 → deref (updateStatus twoCards "u1" false (.ok ())).heap r' =
      deref twoCards.heap r') :=
  (updateStatus_success twoCards "u1" false).2.2.1 [] [1] 0 (by decide) (by decide)
    (by simp)

/-! ## Session gate -/

/-- C10: `handleCredentialResponse` grants access (the email becomes the current user and is
persisted under `user_email`, the app view is shown, the login view hidden, the data load
started) exactly when the decoded email is a member of the allow-list; otherwise the state is
left as it was but for the rejection message shown. -/
theorem handleCredentialResponse_gate (allowedEmails : List JSVal) (email : JSVal) (s : State) :
    (accessGranted email s (handleCredentialResponse allowedEmails email s) ↔
      email ∈ allowedEmails) ∧
    (email ∈ allowedEmails →
      (handleCredentialResponse allowedEmails email s).alerts = s.alerts) ∧
    (email ∉ allowedEmails →
      handleCredentialResponse allowedEmails email s =
        { s with alerts := s.alerts ++
                  ["Sorry, your email is not authorized to access this dashboard."] }) := by
  by_cases h : email ∈ allowedEmails
  · have hc : allowedEmails.contains email = true := by simpa using h
    have hval : handleCredentialResponse allowedEmails email s =
        loadAssignmentsStart
          (showApp { s with currentUser := email, storedEmail := some (toStr email) }) := by
      unfold handleCredentialResponse; rw [if_pos hc]
    refine ⟨⟨fun _ => h, fun _ => ?_⟩, fun _ => ?_, fun hn => absurd h hn⟩
    · rw [hval]; exact ⟨rfl, rfl, rfl, rfl, rfl⟩
    · rw [hval]; rfl
  · have hc : ¬ allowedEmails.contains email = true := by simpa using h
    have hval : handleCredentialResponse allowedEmails email s =
        { s with alerts := s.alerts ++
                  ["Sorry, your email is not authorized to access this dashboard."] } := by
      unfold handleCredentialResponse; rw [if_neg hc]
    refine ⟨⟨fun hg => ?_, fun hm => absurd hm h⟩, fun hm => absurd hm h, fun _ => hval⟩
    rw [hval] at hg
    have h5 := hg.2.2.2.2
    simp at h5

/-- C10 at an example: with the allow-list `student@example.com`, that address is let in and
a stranger is not. -/
theorem handleCredentialResponse_gate_witness :
    accessGranted (.str "student@example.com") {}
      (handleCredentialResponse [.str "student@example.com"] (.str "student@example.com") {}) ∧
    handleCredentialResponse [.str "student@example.com"] (.str "stranger@example.com") {} =
      { alerts := ["Sorry, your email is not authorized to access this dashboard."] } :=
  ⟨(handleCredentialResponse_gate [.str "student@example.com"] (.str "student@example.com")
      {}).1.2 (by decide),
   (handleCredentialResponse_gate [.str "student@example.com"] (.str "stranger@example.com")
      {}).2.2 (by decide)⟩

/-! ## Progress indicator: double arithmetic -/

theorem roundNearestEven_error (t : ℚ) : |(roundNearestEven t : ℚ) - t| ≤ 1 / 2 := by
  have h1 := Int.floor_le t
  have h2 := Int.lt_floor_add_one t
  unfold roundNearestEven
  simp only []
  split_ifs <;> rw [abs_le] <;> constructor <;> push_cast <;> linarith

theorem toDouble_error (x : ℚ) (hx : 0 < x) : |toDouble x - x| ≤ x / 2 ^ 53 := by
  unfold toDouble
  rw [if_neg (not_le.2 hx)]
  simp only []
  have hlow : ((2 : ℕ) : ℚ) ^ Int.log 2 x ≤ x := Int.zpow_log_le_self (by norm_num) hx
  rw [Nat.cast_ofNat] at hlow
  set e := Int.log 2 x with he
  have hu : (0 : ℚ) < 2 ^ (e - 52) := by positivity
  have hr := roundNearestEven_error (x / 2 ^ (e - 52))
  have hsplit : (roundNearestEven (x / 2 ^ (e - 52)) : ℚ) * 2 ^ (e - 52) - x
      = ((roundNearestEven (x / 2 ^ (e - 52)) : ℚ) - x / 2 ^ (e - 52)) * 2 ^ (e - 52) := by
    field_simp
  rw [hsplit, abs_mul, abs_of_pos hu]
  have hpow : (2 : ℚ) ^ (e - 52) = 2 ^ e / 2 ^ 52 := by
    rw [zpow_sub₀ (by norm_num)]; norm_cast
  calc |(roundNearestEven (x / 2 ^ (e - 52)) : ℚ) - x / 2 ^ (e - 52)| * 2 ^ (e - 52)
      ≤ 1 / 2 * 2 ^ (e - 52) := by gcongr
    _ = 2 ^ e / 2 ^ 53 := by rw [hpow]; ring
    _ ≤ x / 2 ^ 53 := by gcongr

theorem toDouble_nonneg (x : ℚ) : 0 ≤ toDouble x := by
  by_cases hx : x ≤ 0
  · simp [toDouble, hx]
  · have h := toDouble_error x (not_le.1 hx)
    rw [abs_le] at h
    have : x / 2 ^ 53 ≤ x := by
      apply div_le_self (le_of_lt (not_le.1 hx)); norm_num
    linarith [h.1]

theorem percentage_close (c n : Nat) (hn : 0 < n) (hc : c ≤ n) :
    0 ≤ toDouble (toDouble ((c : ℚ) / (n : ℚ)) * 100) ∧
    |toDouble (toDouble ((c : ℚ) / (n : ℚ)) * 100) - 100 * ((c : ℚ) / (n : ℚ))| ≤ 201 / 2 ^ 53 := by
  refine ⟨toDouble_nonneg _, ?_⟩
  have hnq : (0 : ℚ) < n := by exact_mod_cast hn
  have hx1 : (c : ℚ) / n ≤ 1 := by
    rw [div_le_one hnq]; exact_mod_cast hc
  rcases Nat.eq_zero_or_pos c with h0 | hpos
  · subst h0
    simp [toDouble]
    positivity
  · have hx0 : (0 : ℚ) < (c : ℚ) / n := div_pos (by exact_mod_cast hpos) hnq
    set x : ℚ := (c : ℚ) / n with hxdef
    have hy := toDouble_error x hx0
    set y := toDouble x with hydef
    rw [abs_le] at hy
    have hsmall : x / 2 ^ 53 ≤ x / 2 := by
      apply div_le_div_of_nonneg_left (le_of_lt hx0) (by norm_num) (by norm_num)
    have hy0 : 0 < y * 100 := by linarith [hy.1]
    have hz := toDouble_error (y * 100) hy0
    set z := toDouble (y * 100) with hzdef
    rw [abs_le] at hz ⊢
    have e1 : x / 2 ^ 53 = x * (1 / 2 ^ 53) := by ring
    have e2 : y * 100 / 2 ^ 53 = y * (100 / 2 ^ 53) := by ring
    rw [e1] at hy
    rw [e2] at hz
    norm_num at hy hz ⊢
    constructor <;> linarith [hy.1, hy.2, hz.1, hz.2]

theorem roundNearestEven_of_lt_half (t : ℚ) (m : ℤ) (h₁ : (m : ℚ) ≤ t) (h₂ : t < m + 1 / 2) :
    roundNearestEven t = m := by
  have hf : ⌊t⌋ = m := by
    rw [Int.floor_eq_iff]; constructor <;> linarith
  unfold roundNearestEven
  simp only [hf]
  rw [if_pos (by linarith)]

theorem log_two_eq (x : ℚ) (e : ℤ) (h₁ : (2 : ℚ) ^ e ≤ x) (h₂ : x < 2 ^ (e + 1)) :
    Int.log 2 x = e := by
  have hx : 0 < x := lt_of_lt_of_le (by positivity) h₁
  have ha : e ≤ Int.log 2 x := by
    rw [← Int.zpow_le_iff_le_log (by norm_num) hx]; simpa using h₁
  have hb : Int.log 2 x < e + 1 := by
    rw [← Int.lt_zpow_iff_log_lt (by norm_num) hx]; simpa using h₂
  omega

theorem toDouble_of_lt_half (x : ℚ) (e m : ℤ) (h₁ : (2 : ℚ) ^ e ≤ x) (h₂ : x < 2 ^ (e + 1))
    (h₃ : (m : ℚ) ≤ x / 2 ^ (e - 52)) (h₄ : x / 2 ^ (e - 52) < m + 1 / 2) :
    toDouble x = m * 2 ^ (e - 52) := by
  have hx : 0 < x := lt_of_lt_of_le (by positivity) h₁
  unfold toDouble
  rw [if_neg (not_le.2 hx)]
  simp only [log_two_eq x e h₁ h₂, roundNearestEven_of_lt_half _ m h₃ h₄]

theorem percentage_23_40 : percentage 23 40 = 57 := by
  have hy : toDouble ((23 : ℚ) / 40) = 5179139571476070 * 2 ^ ((-1 : ℤ) - 52) := by
    have := toDouble_of_lt_half ((23 : ℚ) / 40) (-1) 5179139571476070
      (by norm_num) (by norm_num) (by norm_num) (by norm_num)
    simpa using this
  have hz : toDouble (5179139571476070 * 2 ^ ((-1 : ℤ) - 52) * 100) =
      8092405580431359 * 2 ^ ((5 : ℤ) - 52) := by
    have := toDouble_of_lt_half (5179139571476070 * 2 ^ ((-1 : ℤ) - 52) * 100) 5
      8092405580431359 (by norm_num) (by norm_num) (by norm_num) (by norm_num)
    simpa using this
  unfold percentage mathRound
  rw [if_pos (by norm_num)]
  have hcast : ((23 : ℕ) : ℚ) / ((40 : ℕ) : ℚ) = (23 : ℚ) / 40 := by norm_num
  rw [hcast, hy, hz, Int.floor_eq_iff]
  constructor <;> norm_num

theorem percentage_bounds (c n : Nat) (hn : 0 < n) (hc : c ≤ n) (hlen : n < 2 ^ 32) :
    0 ≤ percentage c n ∧ percentage c n ≤ 100 ∧
    -(n : ℤ) ≤ 2 * n * percentage c n - 200 * c ∧ 2 * n * percentage c n - 200 * c ≤ n ∧
    ((200 * c) % (2 * n) ≠ n → percentage c n = nearestPercent c n) := by
  obtain ⟨hz0, hz⟩ := percentage_close c n hn hc
  have hp : percentage c n = ⌊toDouble (toDouble ((c : ℚ) / (n : ℚ)) * 100) + 1 / 2⌋ := by
    unfold percentage mathRound; rw [if_pos hn]
  set z := toDouble (toDouble ((c : ℚ) / (n : ℚ)) * 100) with hzdef
  set p := percentage c n with hpdef
  have hnq : (0 : ℚ) < n := by exact_mod_cast hn
  have hnq' : (n : ℚ) < 2 ^ 32 := by exact_mod_cast hlen
  have hcq : (c : ℚ) ≤ n := by exact_mod_cast hc
  have hc0 : (0 : ℚ) ≤ c := by exact_mod_cast Nat.zero_le c
  have hfl1 : (p : ℚ) ≤ z + 1 / 2 := by rw [hp]; exact Int.floor_le _
  have hfl2 : z + 1 / 2 < p + 1 := by rw [hp]; exact Int.lt_floor_add_one _
  rw [abs_le] at hz
  have hp0 : 0 ≤ p := by
    rw [hp]; apply Int.floor_nonneg.2; linarith
  have hx1 : (c : ℚ) / n ≤ 1 := by rw [div_le_one hnq]; exact hcq
  have hp100 : p ≤ 100 := by
    have : (p : ℚ) < 101 := by norm_num at hz; linarith [hz.2]
    have : p < 101 := by exact_mod_cast this
    omega
  have h3 : ((p : ℚ) - 100 * ((c : ℚ) / n)) * (2 * n) = 2 * n * p - 200 * c := by
    have : 100 * ((c : ℚ) / n) * (2 * n) = 200 * c := by field_simp; ring
    linarith
  have hup : (2 * n * p - 200 * c : ℚ) < n + 1 := by
    have h1 : (p : ℚ) - 100 * ((c : ℚ) / n) ≤ 1 / 2 + 201 / 2 ^ 53 := by linarith [hz.2]
    have h2 : ((p : ℚ) - 100 * ((c : ℚ) / n)) * (2 * n) ≤ (1 / 2 + 201 / 2 ^ 53) * (2 * n) :=
      mul_le_mul_of_nonneg_right h1 (by linarith)
    rw [h3] at h2
    norm_num at h2 ⊢
    linarith
  have hdown : (-(n : ℚ) - 1) < 2 * n * p - 200 * c := by
    have h1 : -(1 / 2) - 201 / 2 ^ 53 < (p : ℚ) - 100 * ((c : ℚ) / n) := by linarith [hz.1]
    have h2 : (-(1 / 2) - 201 / 2 ^ 53) * (2 * n) < ((p : ℚ) - 100 * ((c : ℚ) / n)) * (2 * n) :=
      mul_lt_mul_of_pos_right h1 (by linarith)
    rw [h3] at h2
    norm_num at h2 ⊢
    linarith
  have hupZ : 2 * (n : ℤ) * p - 200 * c < n + 1 := by exact_mod_cast hup
  have hdownZ : -(n : ℤ) - 1 < 2 * n * p - 200 * c := by exact_mod_cast hdown
  refine ⟨hp0, hp100, by omega, by omega, ?_⟩
  intro htie
  have hne : 2 * (n : ℤ) * p - 200 * c ≠ -n := by
    intro heq
    apply htie
    obtain ⟨k, hk⟩ := Int.eq_ofNat_of_zero_le hp0
    rw [hk] at heq
    have hnat : 200 * c = n + 2 * n * k := by
      have : (200 * c : ℤ) = n + 2 * n * k := by linarith
      exact_mod_cast this
    rw [hnat, Nat.add_mul_mod_self_left]
    exact Nat.mod_eq_of_lt (by omega)
  have hlo : -(n : ℤ) < 2 * n * p - 200 * c := by omega
  have hhi : 2 * (n : ℤ) * p - 200 * c ≤ n := by omega
  have hloQ : -(n : ℚ) < 2 * n * p - 200 * c := by exact_mod_cast hlo
  have hhiQ : (2 * n * p - 200 * c : ℚ) ≤ n := by exact_mod_cast hhi
  unfold nearestPercent
  rw [if_neg (by omega)]
  symm
  rw [Int.floor_eq_iff]
  have hrew : 100 * (c : ℚ) / n = 100 * ((c : ℚ) / n) := by ring
  rw [hrew]
  have h2n : (0 : ℚ) < 2 * n := by linarith
  constructor
  · have : (p : ℚ) - 100 * ((c : ℚ) / n) ≤ 1 / 2 := by
      apply le_of_mul_le_mul_right _ h2n
      rw [h3]; linarith
    linarith
  · have : -(1 / 2) < (p : ℚ) - 100 * ((c : ℚ) / n) := by
      apply lt_of_mul_lt_mul_right _ (le_of_lt h2n)
      rw [h3]; linarith
    linarith

theorem completedCount_le (s : State) : completedCount s ≤ s.assignments.length :=
  List.length_filter_le _ _

theorem render_progressBar (s : State) :
    (render s).progressBar = s.progressBar.map (fun _ =>
      ⟨numberToString (progressOf s) ++ "%", numberToString (progressOf s) ++ "% Complete"⟩) := by
  unfold render
  split <;> (unfold updateProgress; cases h : s.progressBar <;> simp [h, progressOf, completedCount])

/-! ## Progress indicator -/

/-- C5, as stated, fails: with 23 of 40 assignments completed the exact percentage is 57.5,
which rounds up to 58, but the double product `(23 / 40) * 100` is `57.49999999999999` and the
progress bar shows 57. -/
theorem render_progress_rounds_down :
    (render twentyThreeOfForty).progressBar = some ⟨"57%", "57% Complete"⟩ ∧
    progressOf twentyThreeOfForty = 57 ∧
    nearestPercent (completedCount twentyThreeOfForty) twentyThreeOfForty.assignments.length
      = 58 := by
  have hc : completedCount twentyThreeOfForty = 23 := by decide
  have hn : twentyThreeOfForty.assignments.length = 40 := by decide
  have hp : progressOf twentyThreeOfForty = 57 := by
    unfold progressOf; rw [hc, hn]; exact percentage_23_40
  refine ⟨?_, hp, ?_⟩
  · rw [render_progressBar, hp]; rfl
  · rw [hc, hn]
    unfold nearestPercent
    rw [if_neg (by norm_num), Int.floor_eq_iff]
    constructor <;> norm_num

/-- C5, amended: on a page with a progress bar, `render` sets the bar to the percentage `p`
computed from `assignments` alone (any `filtered`, empty or not, gives the same bar): `p = 0`
when `assignments` is empty, otherwise `p` is `Math.round` of the double product
`(c / n) * 100`, which is an integer nearest to `100 * c / n` (`|p - 100 * c / n| ≤ 1/2`) and
is the one obtained by rounding halves up whenever `100 * c / n` is not exactly half-way
between two integers; hence `0 ≤ p ≤ 100`, and 4 assignments with 1 completed give 25. -/
theorem render_progress (s : State) (bar : ProgressBar) (hbar : s.progressBar = some bar)
    (hlen : s.assignments.length < 2 ^ 32) :
    (render s).progressBar = some
      ⟨numberToString (progressOf s) ++ "%", numberToString (progressOf s) ++ "% Complete"⟩ ∧
    (∀ f : List Nat, (render { s with filtered := f }).progressBar = (render s).progressBar) ∧
    progressOf s = percentage (completedCount s) s.assignments.length ∧
    (s.assignments = [] → progressOf s = 0) ∧
    0 ≤ progressOf s ∧ progressOf s ≤ 100 ∧
    |2 * (s.assignments.length : ℤ) * progressOf s - 200 * (completedCount s : ℤ)|
      ≤ s.assignments.length ∧
    ((200 * completedCount s) % (2 * s.assignments.length) ≠ s.assignments.length →
      progressOf s = nearestPercent (completedCount s) s.assignments.length) ∧
    (s.assignments.length = 4 → completedCount s = 1 → progressOf s = 25) := by
  have hmain : 0 ≤ progressOf s ∧ progressOf s ≤ 100 ∧
      |2 * (s.assignments.length : ℤ) * progressOf s - 200 * (completedCount s : ℤ)|
        ≤ s.assignments.length ∧
      ((200 * completedCount s) % (2 * s.assignments.length) ≠ s.assignments.length →
        progressOf s = nearestPercent (completedCount s) s.assignments.length) := by
    rcases Nat.eq_zero_or_pos s.assignments.length with h0 | hpos
    · have hc0 : completedCount s = 0 := by
        have := completedCount_le s; omega
      have hp0 : progressOf s = 0 := by
        unfold progressOf percentage; rw [if_neg (by omega)]
      rw [hp0, h0, hc0]
      simp [nearestPercent]
    · obtain ⟨h1, h2, h3, h4, h5⟩ :=
        percentage_bounds (completedCount s) s.assignments.length hpos (completedCount_le s) hlen
      exact ⟨h1, h2, abs_le.2 ⟨h3, h4⟩, h5⟩
  obtain ⟨h1, h2, h3, h4⟩ := hmain
  refine ⟨?_, ?_, rfl, ?_, h1, h2, h3, h4, ?_⟩
  · rw [render_progressBar, hbar]; rfl
  · intro f
    rw [render_progressBar, render_progressBar]; rfl
  · intro h
    unfold progressOf percentage
    rw [h]; rfl
  · intro hn hc
    have h := h4 (by rw [hn, hc]; decide)
    rw [h, hn, hc]
    unfold nearestPercent
    rw [if_neg (by norm_num), Int.floor_eq_iff]
    constructor <;> norm_num

/-- The amended C5 at the specification's example: four assignments, one of them completed
and another one in the filtered view, show 25%. -/
theorem render_progress_witness :
    (render oneOfFour).progressBar = some ⟨"25%", "25% Complete"⟩ ∧
    0 ≤ progressOf oneOfFour ∧ progressOf oneOfFour ≤ 100 := by
  have h := render_progress oneOfFour ⟨"", ""⟩ rfl (by decide)
  have h25 : progressOf oneOfFour = 25 := h.2.2.2.2.2.2.2.2 (by decide) (by decide)
  refine ⟨?_, h.2.2.2.2.1, h.2.2.2.2.2.1⟩
  rw [h.1, h25]; rfl

end Dashboard
